import Mathlib

/-!
Verification of `ol/source/GlTiledTexture/GlTiledTextureGeoTiffTiles.js`
(classes `GlTiledTextureGeoTiffTiles`, `GlTiledTextureGeoTiff`, and the
abstract base `GlTiledTextureAbstract`) from the IvanSanchez/openlayers
repository, as a shallow embedding in Lean 4.

External effects (the GeoTIFF library's `readRasters`, promise settlement,
the factory) are modelled as explicit data: the observable arguments of
each external call, plus abstract oracle functions for their results.
JavaScript numbers used in the pixel-window arithmetic are modelled as
rationals; typed-array element coercions are modelled with explicit
wrap-around on integers.
-/

namespace GlTiledTexture

/-- Modelled from the spec: `ol/structs/LRUCache.js` is imported by
`GlTiledTextureGeoTiffTiles.js` but its source is not part of the provided
files.  The spec describes it as "a fixed-size least-recently-used cache
... the caching policy itself — capacity, eviction, key-on-URL — is a
single reusable generic structure".  We model it as an association list of
entries in recency order (head = least recently used, last = most recently
used) together with the capacity (`highWaterMark`). -/
structure LRUCache (α : Type) where
  highWaterMark : Nat
  entries : List (String × α)
deriving Repr

namespace LRUCache

variable {α : Type}

/-- Modelled from the spec (`LRUCache.containsKey`): key membership. -/
def containsKey (c : LRUCache α) (k : String) : Bool :=
  c.entries.any (fun e => e.1 = k)

/-- Modelled from the spec (`LRUCache.getCount`): number of entries. -/
def getCount (c : LRUCache α) : Nat :=
  c.entries.length

/-- Modelled from the spec (`LRUCache.get`): look up the value stored under
`k` and move the entry to the most-recently-used position.  The caller
(`getTiledData`) only calls this under a `containsKey` guard. -/
def get (c : LRUCache α) (k : String) : Option α × LRUCache α :=
  match c.entries.find? (fun e => e.1 = k) with
  | none => (none, c)
  | some e =>
    (some e.2,
     ⟨c.highWaterMark, c.entries.filter (fun x => ¬(x.1 = k)) ++ [(k, e.2)]⟩)

/-- Modelled from the spec (`LRUCache.set`): insert a new entry at the
most-recently-used position.  The caller only calls this when the key is
absent. -/
def set (c : LRUCache α) (k : String) (v : α) : LRUCache α :=
  ⟨c.highWaterMark, c.entries ++ [(k, v)]⟩

/-- Modelled from the spec (`LRUCache.canExpireCache`): the cache can
expire entries when it holds more entries than its fixed capacity. -/
def canExpireCache (c : LRUCache α) : Bool :=
  0 < c.highWaterMark ∧ c.highWaterMark < c.entries.length

/-- Modelled from the spec (`LRUCache.pop`): evict the least-recently-used
entry (the head of the recency list). -/
def pop (c : LRUCache α) : LRUCache α :=
  ⟨c.highWaterMark, c.entries.tail⟩

/-- The key of the least-recently-used entry, if any. -/
def lruKey (c : LRUCache α) : Option String :=
  c.entries.head?.map Prod.fst

/-- The list of keys, in recency order. -/
def keys (c : LRUCache α) : List String :=
  c.entries.map Prod.fst

/-- The value stored under a key, without touching recency (a
specification-side observer, not an `LRUCache.js` method). -/
def lookupVal (c : LRUCache α) (k : String) : Option α :=
  (c.entries.find? (fun e => e.1 = k)).map Prod.snd

end LRUCache

/-- The module-level GeoTIFF cache:
`const geotiffCache = new LRUCache(16);` (line 13).  Shared by every
`GlTiledTextureGeoTiffTiles` instance; initially empty with capacity 16. -/
def geotiffCache (α : Type) : LRUCache α :=
  ⟨16, []⟩

/-- Outcome of one run of the cache section of
`GlTiledTextureGeoTiffTiles.getTiledData` (lines 56–65): the instance
obtained, the new state of the module-level cache, whether the
`geotiffFactory` was invoked, and the key of the entry evicted by
`pop()`, if any. -/
structure CacheStepResult (α : Type) where
  value : α
  cache : LRUCache α
  invoked : Bool
  evicted : Option String
deriving Repr

/-- Lines 56–65 of `GlTiledTextureGeoTiffTiles.getTiledData`:

```
let instance;
if (geotiffCache.containsKey(url)) \x7b
  instance = geotiffCache.get(url);
\x7d else \x7b
  instance = this.factory_(url);
  geotiffCache.set(url, instance);
  if (geotiffCache.canExpireCache()) \x7b
    geotiffCache.pop();
  \x7d
\x7d
```
-/
def cacheStep {α : Type} (factory : String → α) (c : LRUCache α) (url : String) :
    CacheStepResult α :=
  if c.containsKey url then
    let g := c.get url
    { value := (g.1).getD (factory url), cache := g.2, invoked := false, evicted := none }
  else
    let v := factory url
    let c1 := c.set url v
    if c1.canExpireCache then
      { value := v, cache := c1.pop, invoked := true, evicted := c1.lruKey }
    else
      { value := v, cache := c1, invoked := true, evicted := none }

/-- A sequence of `getTiledData` calls hitting the shared module-level
cache; each call may come from a different instance, hence carries its own
factory, together with the tile URL it computed. -/
def runSeq {α : Type} (calls : List ((String → α) × String)) (c : LRUCache α) :
    LRUCache α :=
  calls.foldl (fun acc fu => (cacheStep fu.1 acc fu.2).cache) c

/-- The per-call observable records (url, factory invoked?, evicted key)
of a sequence of `getTiledData` calls on the shared cache. -/
def runSeqTrace {α : Type} (calls : List ((String → α) × String)) (c : LRUCache α) :
    List (String × Bool × Option String) :=
  match calls with
  | [] => []
  | fu :: rest =>
    let r := cacheStep fu.1 c fu.2
    (fu.2, r.invoked, r.evicted) :: runSeqTrace rest r.cache

/-! ### `getFetchFunctionDef` (lines 96–139 and, identically, 281–328)

Both `GlTiledTextureGeoTiffTiles.getFetchFunctionDef` and
`GlTiledTextureGeoTiff.getFetchFunctionDef` run the same if-chain on
`(bits, format) = (dir.BitsPerSample[sample], dir.SampleFormat[sample])`
once their image promise resolves; we embed that chain once.  The branch
structure is made explicit as an inductive so that dead branches of the
source can be reasoned about directly. -/

/-- GLSL body used for `(8, uint)` and `(8, int)` samples (lines 105, 108). -/
def body8 : String := "return texel.x * 256.;"

/-- GLSL body used for `(16, uint)` and `(16, int)` samples (lines 110, 113). -/
def body16 : String := "return texel.x * 256. + texel.a * 65536.0;"

/-- Lines 134–137: the template wrapping a body into the full fetch
function definition. -/
def wrapGlsl (fetchFuncName uniformName body : String) : String :=
  "float " ++ fetchFuncName ++ "(vec2 texelCoords) \x7b\n        vec4 texel = texture2D(" ++
    uniformName ++ ", texelCoords.st);\n        " ++ body ++ "\n      \x7d"

/-- The rejection message template of lines 116–130:
`GeoTIFF pixel format not yet implemented (<bits> bits, <kindWord>)`. -/
def notImplementedMsg (bits : Nat) (kindWord : String) : String :=
  "GeoTIFF pixel format not yet implemented (" ++ toString bits ++ " bits, " ++
    kindWord ++ ")"

/-- The eight syntactic branches of the `getFetchFunctionDef` if-chain, in
source order: four body-producing branches (lines 104–113) and four
rejection branches (lines 115–131).  `rejectFloat` is the third rejection
branch (line 123), whose guard in the source is `format === 2` — a
duplicate of the second rejection branch's guard. -/
inductive FetchBranch
  | body8uint
  | body8int
  | body16uint
  | body16int
  | rejectUint
  | rejectInt
  | rejectFloat
  | rejectUnknown
deriving Repr, DecidableEq

/-- The branch selected by the if-chain of `getFetchFunctionDef`
(lines 104–131), kept guard-for-guard faithful to the source; in
particular the seventh test repeats `format = 2` exactly as line 123
repeats `format === 2`. -/
def fetchFormatBranch (bits format : Nat) : FetchBranch :=
  if bits = 8 ∧ format = 1 then .body8uint
  else if bits = 8 ∧ format = 2 then .body8int
  else if bits = 16 ∧ format = 1 then .body16uint
  else if bits = 16 ∧ format = 2 then .body16int
  else if format = 1 then .rejectUint
  else if format = 2 then .rejectInt
  else if format = 2 then .rejectFloat
  else .rejectUnknown

/-- Settlement of the promise returned by `getFetchFunctionDef`. -/
inductive FetchFunctionResult
  | resolved (glsl : String)
  | rejected (msg : String)
deriving Repr, DecidableEq

/-- Embedding of `getFetchFunctionDef` (lines 96–139 / 281–328), as a function of the
selected sample's `BitsPerSample` and `SampleFormat` entries: each branch
produces exactly the resolution or rejection the source produces there. -/
def getFetchFunctionDef (fetchFuncName uniformName : String) (bits format : Nat) :
    FetchFunctionResult :=
  match fetchFormatBranch bits format with
  | .body8uint => .resolved (wrapGlsl fetchFuncName uniformName body8)
  | .body8int => .resolved (wrapGlsl fetchFuncName uniformName body8)
  | .body16uint => .resolved (wrapGlsl fetchFuncName uniformName body16)
  | .body16int => .resolved (wrapGlsl fetchFuncName uniformName body16)
  | .rejectUint => .rejected (notImplementedMsg bits "uint")
  | .rejectInt => .rejected (notImplementedMsg bits "int")
  | .rejectFloat => .rejected (notImplementedMsg bits "float")
  | .rejectUnknown => .rejected (notImplementedMsg bits "unknown uint/int/float")

/-! ### `GlTiledTextureGeoTiff`: image loading and pixel-window reads -/

/-- A geographic extent `[minX, minY, maxX, maxY]`, as used for both the
GeoTIFF bounding box (`img.getBoundingBox()`) and tile extents. -/
structure Extent where
  e0 : ℚ
  e1 : ℚ
  e2 : ℚ
  e3 : ℚ
deriving Repr, DecidableEq

/-- The metadata of a decoded GeoTIFF image, as queried by `loadImage_`:
pixel dimensions, bounding box, and the file directory's per-sample
`BitsPerSample` / `SampleFormat` arrays. -/
structure GeoTiffImage where
  width : ℕ
  height : ℕ
  bbox : Extent
  samplesPerPixel : ℕ
  bitsPerSample : List ℕ
  sampleFormat : List ℕ
deriving Repr, DecidableEq

/-- The typed-array element kind chosen by `loadImage_` (lines 212–217):
`Uint8Array`, `Uint16Array` or `Int16Array`. -/
inductive ElemKind
  | uint8
  | uint16
  | int16
deriving Repr, DecidableEq

/-- JavaScript typed-array element coercion, as performed by
`TypedArray.prototype.fill` on an integer argument: wrap-around into the
element type's range. -/
def coerceToElem (k : ElemKind) (n : ℤ) : ℤ :=
  match k with
  | .uint8 => n % 256
  | .uint16 => n % 65536
  | .int16 => (n + 32768) % 65536 - 32768

/-- The state cached on a `GlTiledTextureGeoTiff` by a successful
`loadImage_` (lines 188–230): `width_`, `height_`, `bbox_`, `bboxWidth_`,
`bboxHeight_`, and the prefilled `emptyData_` array with its element kind. -/
structure LoadedGeoTiff where
  width : ℕ
  height : ℕ
  bbox : Extent
  bboxWidth : ℚ
  bboxHeight : ℚ
  kind : ElemKind
  emptyData : List ℤ
deriving Repr, DecidableEq

/-- Embedding of `GlTiledTextureGeoTiff.loadImage_` (lines 188–230): cache dimensions
and bbox, reject an out-of-range sample index, build the prefilled
`emptyData_` array for the sample's `(bits, format)` pair — filling with
`fillValue` coerced into the chosen element type, as
`TypedArray.prototype.fill` does — or reject unsupported formats. -/
def loadImage (sample : ℕ) (fillValue : ℤ) (img : GeoTiffImage) :
    Except String LoadedGeoTiff :=
  if sample ≥ img.samplesPerPixel then
    .error ("Requested sample " ++ toString sample ++ ", but only " ++
      toString img.samplesPerPixel ++ " samples are available")
  else
    let bits := img.bitsPerSample.getD sample 0
    let format := img.sampleFormat.getD sample 0
    if bits = 8 ∧ format = 1 then
      .ok ⟨img.width, img.height, img.bbox, img.bbox.e2 - img.bbox.e0,
        img.bbox.e3 - img.bbox.e1, .uint8,
        List.replicate (img.width * img.height) (coerceToElem .uint8 fillValue)⟩
    else if bits = 16 ∧ format = 1 then
      .ok ⟨img.width, img.height, img.bbox, img.bbox.e2 - img.bbox.e0,
        img.bbox.e3 - img.bbox.e1, .uint16,
        List.replicate (img.width * img.height) (coerceToElem .uint16 fillValue)⟩
    else if bits = 16 ∧ format = 2 then
      .ok ⟨img.width, img.height, img.bbox, img.bbox.e2 - img.bbox.e0,
        img.bbox.e3 - img.bbox.e1, .int16,
        List.replicate (img.width * img.height) (coerceToElem .int16 fillValue)⟩
    else
      .error "FIXME: could not create empty tile data for GeoTIFF sample format, or unsupported (32-bit) format"

/-- JavaScript `Math.round` on a rational: round to nearest, ties toward positive
infinity. -/
def jsRound (q : ℚ) : ℤ := ⌊q + 1 / 2⌋

/-- The argument object passed to `img.readRasters` by
`GlTiledTextureGeoTiff.getTiledData` (lines 254–264). -/
structure WindowReadArgs (π : Type) where
  window : List ℤ
  width : ℕ
  height : ℕ
  resampleMethod : String
  samples : List ℕ
  fillValue : ℤ
  pool : Option π
deriving DecidableEq

/-- Observable outcome of `GlTiledTextureGeoTiff.getTiledData` once the
image promise has resolved: either the precomputed `emptyData_` array is
returned without calling `readRasters`, or `readRasters` is invoked with
the recorded arguments. -/
inductive GeoTiffTileResult (π : Type)
  | emptyTile (data : List ℤ)
  | readCall (args : WindowReadArgs π)
deriving DecidableEq

/-- Embedding of `GlTiledTextureGeoTiff.getTiledData` (lines 235–269): convert the tile
extent to pixel coordinates, return `emptyData_` when the window falls
outside the image, and otherwise call `readRasters` with the rounded pixel
window. -/
def getTiledDataGeoTiff {π : Type} (st : LoadedGeoTiff) (sample : ℕ)
    (fillValue : ℤ) (pool : Option π) (tileExtent : Extent)
    (tileSize : ℕ × ℕ) : GeoTiffTileResult π :=
  let x1 := (tileExtent.e2 - st.bbox.e0) / st.bboxWidth * st.width
  let x2 := (tileExtent.e0 - st.bbox.e0) / st.bboxWidth * st.width
  let y1 := (tileExtent.e3 - st.bbox.e1) / st.bboxHeight * st.height
  let y2 := (tileExtent.e1 - st.bbox.e1) / st.bboxHeight * st.height
  if x1 < 0 ∨ (st.width : ℚ) < x2 ∨ y1 < 0 ∨ (st.height : ℚ) < y2 then
    .emptyTile st.emptyData
  else
    .readCall ⟨[jsRound x2, jsRound ((st.height : ℚ) - y1), jsRound x1,
        jsRound ((st.height : ℚ) - y2)],
      tileSize.1, tileSize.2, "nearest", [sample], fillValue, pool⟩

/-- A concrete 1×1 8-bit-uint test image (bbox `[0, 0, 1, 1]`). -/
def sampleImage1 : GeoTiffImage :=
  ⟨1, 1, ⟨0, 0, 1, 1⟩, 1, [8], [1]⟩

/-- The loaded state produced by `loadImage 0 (-999) sampleImage1`: the
`Uint8Array` fill coerces `-999` to `25`. -/
def sampleLoaded1 : LoadedGeoTiff :=
  ⟨1, 1, ⟨0, 0, 1, 1⟩, 1, 1, .uint8, [25]⟩

/-- A concrete 2×2 8-bit-uint test image (bbox `[0, 0, 2, 2]`). -/
def sampleImage2 : GeoTiffImage :=
  ⟨2, 2, ⟨0, 0, 2, 2⟩, 1, [8], [1]⟩

/-- The loaded state produced by `loadImage 0 0 sampleImage2`. -/
def sampleLoaded2 : LoadedGeoTiff :=
  ⟨2, 2, ⟨0, 0, 2, 2⟩, 2, 2, .uint8, List.replicate 4 0⟩

/-! ### `GlTiledTextureGeoTiffTiles.getTiledData` (lines 50–84) -/

/-- A tile coordinate `[z, x, y]`. -/
abbrev TileCoord : Type := ℤ × ℤ × ℤ

/-- The tile source (`this.xyz_`) the tiles texture forwards to: its
coordinate wrapping function and its URL builder. -/
structure TileSource where
  getTileCoordForTileUrlFunction : TileCoord → TileCoord
  tileUrlFunction : TileCoord → String

/-- The per-instance configuration of a `GlTiledTextureGeoTiffTiles`
(constructor, lines 34–45). -/
structure TilesTexture (π : Type) where
  sample : ℕ
  fillValue : ℤ
  xyz : TileSource
  pool : Option π

/-- The argument object passed to `img.readRasters` by
`GlTiledTextureGeoTiffTiles.getTiledData` (lines 73–79): no window, no
resample method. -/
structure ReadRastersArgs (π : Type) where
  width : ℕ
  height : ℕ
  samples : List ℕ
  fillValue : ℤ
  pool : Option π
deriving DecidableEq

/-- Observable outcome of one `GlTiledTextureGeoTiffTiles.getTiledData`
call on the success path of its promise chain. -/
structure TilesCallResult (α ι π ρ : Type) where
  url : String
  step : CacheStepResult α
  image : ι
  readArgs : ReadRastersArgs π
  result : Option ρ

/-- Embedding of `GlTiledTextureGeoTiffTiles.getTiledData` (lines 50–84), success path:
compute the tile URL through the tile source, obtain the GeoTIFF instance
through the module-level cache (lines 56–65), get its image (the value
`resolveAnyTile_` is called with, line 70), call `readRasters` with the
tile size, the single-sample list, the fill value and the pool, and
resolve to the first raster of the result.  The external GeoTIFF library
is abstracted by the oracles `getImage` and `readRasters`. -/
def getTiledDataTiles {α ι π ρ : Type} (tex : TilesTexture π)
    (factory : String → α) (getImage : α → ι)
    (readRasters : ι → ReadRastersArgs π → List ρ) (cache : LRUCache α)
    (tileCoord : TileCoord) (tileSize : ℕ × ℕ) : TilesCallResult α ι π ρ :=
  let urlTileCoord := tex.xyz.getTileCoordForTileUrlFunction tileCoord
  let url := tex.xyz.tileUrlFunction urlTileCoord
  let step := cacheStep factory cache url
  let img := getImage step.value
  let args : ReadRastersArgs π :=
    ⟨tileSize.1, tileSize.2, [tex.sample], tex.fillValue, tex.pool⟩
  ⟨url, step, img, args, (readRasters img args).head?⟩

/-! ### Promise-settlement ordering for `anyTile_` (claim about lines
42–44, 67–71, 96–98)

The temporal behaviour of the `anyTile_` promise is modelled as a small
event system.  Preconditions of each event come from promise semantics and
from the source: a `.then` continuation runs only after its promise has
been registered and its antecedent has settled; `resolveAnyTile_` is
invoked at exactly one program point (line 70, inside the image
continuation of `getTiledData`), and the `rej` function of `anyTile_`
(line 42) is never called. -/

/-- Events of the `anyTile_` model.  `imageLoaded i` is the run of the
image continuation of `getTiledData` call `i` (lines 69–71), which invokes
`resolveAnyTile_`; `fetchFunctionSettled` is the settlement of the promise
returned by `getFetchFunctionDef` (line 97), a `.then` of `anyTile_`. -/
inductive TilesEvent
  | callGetTiledData (id : ℕ)
  | imageLoaded (id : ℕ)
  | callGetFetchFunctionDef
  | fetchFunctionSettled
deriving Repr, DecidableEq

/-- State of the `anyTile_` event model. -/
structure PromiseState where
  tiledDataCalls : List ℕ
  loadedImages : List ℕ
  anyTileResolved : Bool
  fetchRegistered : Bool
  fetchSettled : Bool
deriving Repr, DecidableEq

/-- Constructor state (lines 42–44): `anyTile_` pending, no calls made. -/
def initialPromiseState : PromiseState :=
  ⟨[], [], false, false, false⟩

/-- One event step.  `imageLoaded i` requires that `getTiledData` call `i`
was made (its continuation exists only then); it sets `anyTileResolved`
because line 70 invokes `resolveAnyTile_`, the only resolver of
`anyTile_`.  `fetchFunctionSettled` requires that `getFetchFunctionDef`
was called and that `anyTile_` has resolved, because the returned promise
is `anyTile_.then(...)` and `anyTile_` is never rejected. -/
def applyEvent (st : PromiseState) (e : TilesEvent) : Option PromiseState :=
  match e with
  | .callGetTiledData i =>
    some { st with tiledDataCalls := st.tiledDataCalls ++ [i] }
  | .imageLoaded i =>
    if i ∈ st.tiledDataCalls then
      some { st with loadedImages := st.loadedImages ++ [i], anyTileResolved := true }
    else
      none
  | .callGetFetchFunctionDef =>
    some { st with fetchRegistered := true }
  | .fetchFunctionSettled =>
    if st.fetchRegistered ∧ st.anyTileResolved then
      some { st with fetchSettled := true }
    else
      none

/-- Run a list of events from a state; `none` when some event's
precondition fails (the schedule is impossible). -/
def runEvents (st : PromiseState) (es : List TilesEvent) : Option PromiseState :=
  match es with
  | [] => some st
  | e :: rest =>
    match applyEvent st e with
    | none => none
    | some st2 => runEvents st2 rest

/-- Invariant of the `anyTile_` event model: `anyTileResolved` (and hence
`fetchSettled`) holds only after some image continuation has run, and
every loaded image belongs to a `getTiledData` call. -/
def PromiseInv (s : PromiseState) : Prop :=
  (s.anyTileResolved = true → s.loadedImages ≠ []) ∧
  (∀ i ∈ s.loadedImages, i ∈ s.tiledDataCalls) ∧
  (s.fetchSettled = true → s.loadedImages ≠ [] ∧ s.tiledDataCalls ≠ [])

/-! ## Lemmas about the cache model -/

namespace LRUCache

variable {α : Type}

theorem containsKey_iff_mem_keys (c : LRUCache α) (k : String) :
    c.containsKey k = true ↔ k ∈ c.keys := by
  rw [containsKey, List.any_eq_true, keys]
  constructor
  · rintro ⟨e, he, hk⟩
    exact List.mem_map.mpr ⟨e, he, by simpa using hk⟩
  · intro hk
    rcases List.mem_map.mp hk with ⟨e, he, hk⟩
    exact ⟨e, he, by simpa using hk⟩

theorem containsKey_false_iff (c : LRUCache α) (k : String) :
    c.containsKey k = false ↔ ∀ e ∈ c.entries, e.1 ≠ k := by
  simp [containsKey, List.any_eq_false]

theorem find?_eq_none_of_containsKey_false {c : LRUCache α} {k : String}
    (h : c.containsKey k = false) :
    c.entries.find? (fun e => e.1 = k) = none := by
  rw [List.find?_eq_none]
  intro e he
  simpa using (containsKey_false_iff c k).mp h e he

theorem containsKey_true_find? {c : LRUCache α} {k : String}
    (h : c.containsKey k = true) :
    ∃ e, c.entries.find? (fun e => e.1 = k) = some e ∧ e.1 = k := by
  rcases (List.any_eq_true).mp h with ⟨e, he, hk⟩
  have hsome : (c.entries.find? (fun e => e.1 = k)).isSome := by
    rw [List.find?_isSome]
    exact ⟨e, he, hk⟩
  rcases Option.isSome_iff_exists.mp hsome with ⟨e', he'⟩
  exact ⟨e', he', by simpa using List.find?_some he'⟩

end LRUCache

namespace CacheLemmas

variable {α : Type}

open LRUCache

theorem cacheStep_hit {f : String → α} {c : LRUCache α} {url : String} {v : α}
    (h : c.lookupVal url = some v) :
    (cacheStep f c url).invoked = false ∧ (cacheStep f c url).value = v := by
  rcases Option.map_eq_some'.mp h with ⟨e, hfind, hv⟩
  have hck : c.containsKey url = true := by
    have hp := List.find?_some hfind
    rw [LRUCache.containsKey, List.any_eq_true]
    exact ⟨e, List.mem_of_find?_eq_some hfind, hp⟩
  constructor
  · simp [cacheStep, hck]
  · simp [cacheStep, hck, LRUCache.get, hfind, hv]

theorem cacheStep_miss {f : String → α} {c : LRUCache α} {url : String}
    (h : c.containsKey url = false) :
    (cacheStep f c url).invoked = true ∧
    (cacheStep f c url).value = f url ∧
    (cacheStep f c url).cache.lookupVal url = some (f url) := by
  have hnone := find?_eq_none_of_containsKey_false h
  refine ⟨?_, ?_, ?_⟩
  · simp only [cacheStep, h, Bool.false_eq_true, if_false]
    split <;> rfl
  · simp only [cacheStep, h, Bool.false_eq_true, if_false]
    split <;> rfl
  · simp only [cacheStep, h, Bool.false_eq_true, if_false]
    split
    case isTrue hce =>
      have hlen : 0 < c.entries.length := by
        simp only [LRUCache.canExpireCache, LRUCache.set, List.length_append,
          List.length_singleton, decide_eq_true_eq] at hce
        omega
      obtain ⟨e0, rest, hE⟩ := List.exists_cons_of_ne_nil (List.ne_nil_of_length_pos hlen)
      have hrest : rest.find? (fun e => e.1 = url) = none := by
        rw [List.find?_eq_none]
        intro e he
        have hmem : e ∈ c.entries := by
          rw [hE]; exact List.mem_cons_of_mem _ he
        simpa using (containsKey_false_iff c url).mp h e hmem
      simp [LRUCache.lookupVal, LRUCache.pop, LRUCache.set, hE, List.find?_append, hrest]
    case isFalse hce =>
      simp [LRUCache.lookupVal, LRUCache.set, List.find?_append, hnone]

theorem cacheStep_invoked_eq (f : String → α) (c : LRUCache α) (url : String) :
    (cacheStep f c url).invoked = !c.containsKey url := by
  cases hck : c.containsKey url with
  | true => simp [cacheStep, hck]
  | false =>
    simp only [cacheStep, hck, Bool.false_eq_true, if_false, Bool.not_false]
    split <;> rfl

theorem cacheStep_cache_highWaterMark (f : String → α) (c : LRUCache α) (url : String) :
    (cacheStep f c url).cache.highWaterMark = c.highWaterMark := by
  rw [cacheStep]
  split
  · simp only [LRUCache.get]
    split <;> rfl
  · dsimp only
    split <;> rfl

theorem cacheStep_getCount_le {f : String → α} {c : LRUCache α} {url : String}
    (hpos : 0 < c.highWaterMark) (h : c.getCount ≤ c.highWaterMark) :
    (cacheStep f c url).cache.getCount ≤ c.highWaterMark := by
  rw [cacheStep]
  split
  case isTrue hck =>
    simp only [LRUCache.get]
    split
    case h_1 => exact h
    case h_2 e heq =>
      have he1 := List.find?_some heq
      have hlt : (c.entries.filter (fun x => ¬(x.1 = url))).length < c.entries.length := by
        rw [List.length_filter_lt_length_iff_exists]
        exact ⟨e, List.mem_of_find?_eq_some heq, by simpa using he1⟩
      simp only [LRUCache.getCount, List.length_append, List.length_singleton] at h ⊢
      omega
  case isFalse hck =>
    dsimp only
    split
    case isTrue hce =>
      simp only [LRUCache.getCount, LRUCache.pop, LRUCache.set, List.length_tail,
        List.length_append, List.length_singleton] at h ⊢
      omega
    case isFalse hce =>
      simp only [LRUCache.canExpireCache, LRUCache.set, List.length_append,
        List.length_singleton, decide_eq_true_eq, not_and, not_lt] at hce
      simp only [LRUCache.getCount, LRUCache.set, List.length_append,
        List.length_singleton] at h ⊢
      have := hce hpos
      omega

theorem runSeq_cons (fu : (String → α) × String) (rest : List ((String → α) × String))
    (c : LRUCache α) :
    runSeq (fu :: rest) c = runSeq rest (cacheStep fu.1 c fu.2).cache := rfl

theorem runSeq_highWaterMark (calls : List ((String → α) × String)) (c : LRUCache α) :
    (runSeq calls c).highWaterMark = c.highWaterMark := by
  induction calls generalizing c with
  | nil => rfl
  | cons fu rest ih =>
    rw [runSeq_cons, ih, cacheStep_cache_highWaterMark]

theorem runSeq_getCount_le (calls : List ((String → α) × String)) (c : LRUCache α)
    (hpos : 0 < c.highWaterMark) (h : c.getCount ≤ c.highWaterMark) :
    (runSeq calls c).getCount ≤ c.highWaterMark := by
  induction calls generalizing c with
  | nil => exact h
  | cons fu rest ih =>
    rw [runSeq_cons]
    have h1 := @cacheStep_getCount_le α fu.1 c fu.2 hpos h
    have h2 := cacheStep_cache_highWaterMark fu.1 c fu.2
    have h3 := ih (cacheStep fu.1 c fu.2).cache (h2 ▸ hpos) (h2 ▸ h1)
    rw [h2] at h3
    exact h3

theorem cacheStep_evict {f : String → α} {c : LRUCache α} {url : String}
    (hck : c.containsKey url = false) (hpos : 0 < c.highWaterMark)
    (hcount : c.highWaterMark ≤ c.getCount) :
    (cacheStep f c url).evicted = c.lruKey ∧ c.lruKey ≠ none ∧
    (cacheStep f c url).cache.entries = c.entries.tail ++ [(url, f url)] := by
  have hlen : 0 < c.entries.length := lt_of_lt_of_le hpos hcount
  obtain ⟨e0, rest, hE⟩ := List.exists_cons_of_ne_nil (List.ne_nil_of_length_pos hlen)
  have hce : ((c.set url (f url)).canExpireCache) = true := by
    simp only [LRUCache.canExpireCache, LRUCache.set, List.length_append,
      List.length_singleton, decide_eq_true_eq]
    constructor
    · exact hpos
    · simp only [LRUCache.getCount] at hcount
      omega
  simp only [cacheStep, hck, Bool.false_eq_true, if_false, hce, if_true]
  refine ⟨?_, ?_, ?_⟩
  · simp [LRUCache.lruKey, LRUCache.set, hE]
  · simp [LRUCache.lruKey, hE]
  · simp [LRUCache.pop, LRUCache.set, hE]

theorem cacheStep_no_evict {f : String → α} {c : LRUCache α} {url : String}
    (hck : c.containsKey url = false) (hcount : c.getCount < c.highWaterMark) :
    (cacheStep f c url).evicted = none ∧
    (cacheStep f c url).cache.entries = c.entries ++ [(url, f url)] := by
  have hce : ((c.set url (f url)).canExpireCache) = false := by
    simp only [LRUCache.canExpireCache, LRUCache.set, List.length_append,
      List.length_singleton, decide_eq_false_iff_not, not_and, not_lt]
    intro _
    simp only [LRUCache.getCount] at hcount
    omega
  have hce2 : (⟨c.highWaterMark, c.entries ++ [(url, f url)]⟩ : LRUCache α).canExpireCache =
      false := hce
  refine ⟨?_, ?_⟩ <;> simp [cacheStep, hck, hce, hce2, LRUCache.set]

theorem mem_keys_of_lookupVal {c : LRUCache α} {k : String} {v : α}
    (h : c.lookupVal k = some v) : k ∈ c.keys := by
  rcases Option.map_eq_some'.mp h with ⟨e, hfind, hv⟩
  have hp := List.find?_some hfind
  exact List.mem_map.mpr ⟨e, List.mem_of_find?_eq_some hfind, by simpa using hp⟩

theorem get_keys_preserved {c : LRUCache α} {u url : String} (hmem : url ∈ c.keys) :
    url ∈ ((c.get u).2).keys := by
  rw [LRUCache.get]
  split
  case h_1 => exact hmem
  case h_2 e heq =>
    rcases List.mem_map.mp hmem with ⟨x, hx, hx1⟩
    simp only [LRUCache.keys, List.map_append, List.map_cons, List.map_nil]
    by_cases hxu : url = u
    · subst hxu
      simp
    · apply List.mem_append_left
      exact List.mem_map.mpr ⟨x, List.mem_filter.mpr ⟨hx, by simp [hx1, hxu]⟩, hx1⟩

theorem cacheStep_miss_cases {f : String → α} {c : LRUCache α} {url : String}
    (hck : c.containsKey url = false) :
    ((cacheStep f c url).cache.entries = c.entries ++ [(url, f url)] ∧
      (cacheStep f c url).evicted = none) ∨
    ((cacheStep f c url).cache.entries = c.entries.tail ++ [(url, f url)] ∧
      (cacheStep f c url).evicted = c.lruKey ∧ 0 < c.entries.length) := by
  simp only [cacheStep, hck, Bool.false_eq_true, if_false]
  split
  case isTrue hce =>
    right
    have hlen : 0 < c.entries.length := by
      simp only [LRUCache.canExpireCache, LRUCache.set, List.length_append,
        List.length_singleton, decide_eq_true_eq] at hce
      omega
    obtain ⟨e0, restl, hE⟩ := List.exists_cons_of_ne_nil (List.ne_nil_of_length_pos hlen)
    refine ⟨?_, ?_, hlen⟩
    · simp [LRUCache.pop, LRUCache.set, hE]
    · simp [LRUCache.lruKey, LRUCache.set, hE]
  case isFalse hce =>
    left
    exact ⟨by simp [LRUCache.set], rfl⟩

theorem cacheStep_mem_keys_preserved {f : String → α} {c : LRUCache α} {u url : String}
    (hmem : url ∈ c.keys) (hev : (cacheStep f c u).evicted ≠ some url) :
    url ∈ (cacheStep f c u).cache.keys := by
  cases hck : c.containsKey u with
  | true =>
    have hcache : (cacheStep f c u).cache = (c.get u).2 := by
      simp [cacheStep, hck]
    rw [LRUCache.keys, hcache]
    exact get_keys_preserved hmem
  | false =>
    rcases cacheStep_miss_cases (f := f) hck with ⟨hent, _⟩ | ⟨hent, hevicted, hlen⟩
    · simp only [LRUCache.keys, hent, List.map_append]
      exact List.mem_append_left _ hmem
    · obtain ⟨e0, restl, hE⟩ := List.exists_cons_of_ne_nil (List.ne_nil_of_length_pos hlen)
      have hlru : c.lruKey = some e0.1 := by
        simp [LRUCache.lruKey, hE]
      have hne : url ≠ e0.1 := by
        intro hcontra
        exact hev (by rw [hevicted, hlru, hcontra])
      simp only [LRUCache.keys, hent, List.map_append, hE, List.tail_cons]
      apply List.mem_append_left
      rw [LRUCache.keys, hE] at hmem
      simp only [List.map_cons] at hmem
      rcases List.mem_cons.mp hmem with hcontra | hmem2
      · exact absurd hcontra hne
      · exact hmem2

theorem runSeq_mem_keys {url : String} (calls : List ((String → α) × String))
    (c : LRUCache α) (hmem : url ∈ c.keys)
    (hev : ∀ r ∈ runSeqTrace calls c, r.2.2 ≠ some url) :
    url ∈ (runSeq calls c).keys := by
  induction calls generalizing c with
  | nil => exact hmem
  | cons fu rest ih =>
    have hhead : (fu.2, (cacheStep fu.1 c fu.2).invoked, (cacheStep fu.1 c fu.2).evicted) ∈
        runSeqTrace (fu :: rest) c := by
      rw [runSeqTrace]
      exact List.mem_cons_self _ _
    have hev0 : (cacheStep fu.1 c fu.2).evicted ≠ some url := hev _ hhead
    rw [runSeq_cons]
    apply ih
    · exact cacheStep_mem_keys_preserved hmem hev0
    · intro r hr
      apply hev
      rw [runSeqTrace]
      exact List.mem_cons_of_mem _ hr

end CacheLemmas

/-! ## Claim theorems -/

open CacheLemmas in
/-- Claim C1: For every call to `GlTiledTextureGeoTiffTiles.getTiledData`
(modelled by `cacheStep`, lines 56–65): if the module-level cache already
contains the computed tile URL as a key, the cached GeoTIFF promise is
reused and the `geotiffFactory` is not invoked; if it does not, the
factory is invoked exactly once on that URL (the step's `invoked` flag)
and its result is stored in the cache under that URL before the call
returns. -/
theorem getTiledData_cache_reuse {α : Type} (f : String → α) (c : LRUCache α)
    (url : String) :
    (∀ v, c.lookupVal url = some v →
       (cacheStep f c url).invoked = false ∧ (cacheStep f c url).value = v) ∧
    (c.containsKey url = false →
       (cacheStep f c url).invoked = true ∧
       (cacheStep f c url).value = f url ∧
       (cacheStep f c url).cache.lookupVal url = some (f url)) :=
  ⟨fun _ h => cacheStep_hit h, fun h => cacheStep_miss h⟩

/-- Witness for claim C1 at a concrete input: a miss on an empty cache
invokes the factory and stores the result. -/
theorem getTiledData_cache_reuse_witness :
    (cacheStep (fun s => s) (geotiffCache String) "https://tile/0/0/0.tif").invoked = true ∧
    (cacheStep (fun s => s) (geotiffCache String) "https://tile/0/0/0.tif").value =
      "https://tile/0/0/0.tif" ∧
    (cacheStep (fun s => s) (geotiffCache String) "https://tile/0/0/0.tif").cache.lookupVal
      "https://tile/0/0/0.tif" = some "https://tile/0/0/0.tif" :=
  (getTiledData_cache_reuse (fun s => s) (geotiffCache String) "https://tile/0/0/0.tif").2
    (by decide)

open CacheLemmas in
/-- Claim C2: The module-level GeoTIFF cache has fixed capacity 16, and
after every sequence of `getTiledData` calls the cache holds at most 16
entries; whenever an insertion makes the cache exceed its capacity,
exactly one entry — the least-recently-used one — is evicted (and when it
does not, nothing is evicted). -/
theorem geotiffCache_capacity_16 {α : Type} :
    (geotiffCache α).highWaterMark = 16 ∧
    (∀ calls : List ((String → α) × String),
       (runSeq calls (geotiffCache α)).getCount ≤ 16) ∧
    (∀ (f : String → α) (c : LRUCache α) (url : String),
       c.highWaterMark = 16 → c.containsKey url = false → 16 ≤ c.getCount →
       (cacheStep f c url).evicted = c.lruKey ∧ c.lruKey ≠ none ∧
       (cacheStep f c url).cache.entries = c.entries.tail ++ [(url, f url)]) ∧
    (∀ (f : String → α) (c : LRUCache α) (url : String),
       c.highWaterMark = 16 → c.containsKey url = false → c.getCount < 16 →
       (cacheStep f c url).evicted = none ∧
       (cacheStep f c url).cache.entries = c.entries ++ [(url, f url)]) := by
  refine ⟨rfl, ?_, ?_, ?_⟩
  · intro calls
    exact runSeq_getCount_le calls (geotiffCache α)
      (by simp [geotiffCache]) (by simp [geotiffCache, LRUCache.getCount])
  · intro f c url hwm hck hcount
    rcases cacheStep_evict (f := f) hck (by omega) (by omega) with ⟨h1, h2, h3⟩
    exact ⟨h1, h2, h3⟩
  · intro f c url hwm hck hcount
    exact cacheStep_no_evict hck (by omega)

/-- Witness for claim C2 at a concrete input: inserting a 17th URL into a
full 16-entry cache evicts exactly the least-recently-used entry. -/
theorem geotiffCache_capacity_16_witness :
    (cacheStep (fun s => s)
        (⟨16, (List.range 16).map (fun i => (toString i, toString i))⟩ : LRUCache String)
        "x").evicted =
      (⟨16, (List.range 16).map (fun i => (toString i, toString i))⟩ : LRUCache String).lruKey ∧
    (⟨16, (List.range 16).map (fun i => (toString i, toString i))⟩ :
      LRUCache String).lruKey ≠ none ∧
    (cacheStep (fun s => s)
        (⟨16, (List.range 16).map (fun i => (toString i, toString i))⟩ : LRUCache String)
        "x").cache.entries =
      (⟨16, (List.range 16).map (fun i => (toString i, toString i))⟩ :
        LRUCache String).entries.tail ++ [("x", (fun s : String => s) "x")] :=
  geotiffCache_capacity_16.2.2.1 (fun s => s)
    ⟨16, (List.range 16).map (fun i => (toString i, toString i))⟩ "x" rfl
    (by decide) (by decide)

open CacheLemmas in
/-- Claim C7: Across any sequence of `getTiledData` calls on the shared
module-level cache (each call possibly from a different instance, hence
with its own factory), the `geotiffFactory` is never invoked a second
time for a URL that is still present in the cache: once a call has
invoked the factory for `url`, a later call for `url` does not invoke it
again as long as no intermediate call has evicted `url`. -/
theorem factory_not_reinvoked_while_cached {α : Type} (f1 f2 : String → α)
    (c0 : LRUCache α) (url : String) (calls : List ((String → α) × String))
    (hfirst : (cacheStep f1 c0 url).invoked = true)
    (hnoev : ∀ r ∈ runSeqTrace calls (cacheStep f1 c0 url).cache, r.2.2 ≠ some url) :
    (cacheStep f2 (runSeq calls (cacheStep f1 c0 url).cache) url).invoked = false := by
  have hck0 : c0.containsKey url = false := by
    have h := cacheStep_invoked_eq f1 c0 url
    rw [hfirst] at h
    cases hc : c0.containsKey url
    · rfl
    · rw [hc] at h
      exact absurd h.symm (by simp)
  have hmem : url ∈ (cacheStep f1 c0 url).cache.keys :=
    mem_keys_of_lookupVal (cacheStep_miss hck0).2.2
  have hmem2 : url ∈ (runSeq calls (cacheStep f1 c0 url).cache).keys :=
    runSeq_mem_keys calls _ hmem hnoev
  have hck2 : (runSeq calls (cacheStep f1 c0 url).cache).containsKey url = true :=
    (LRUCache.containsKey_iff_mem_keys _ url).mpr hmem2
  rw [cacheStep_invoked_eq, hck2, Bool.not_true]

/-- Witness for claim C7 at a concrete input: after a first factory
invocation for a URL and one intermediate non-evicting call, a second call
for the same URL does not invoke the factory. -/
theorem factory_not_reinvoked_while_cached_witness :
    (cacheStep (fun s => s)
        (runSeq [((fun s => s), "b")]
          (cacheStep (fun s => s) (geotiffCache String) "a").cache)
        "a").invoked = false :=
  factory_not_reinvoked_while_cached (fun s => s) (fun s => s) (geotiffCache String)
    "a" [((fun s => s), "b")] (by decide) (by decide)

/-- Claim C5: For every `tileCoord`, the URL used by
`GlTiledTextureGeoTiffTiles.getTiledData` to key the cache and
instantiate the GeoTIFF is exactly
`xyz.tileUrlFunction(xyz.getTileCoordForTileUrlFunction(tileCoord))`,
with no other transformation: that string is both the call's `url` and
the argument of the cache step (whose key and factory argument it is). -/
theorem getTiledData_url_composition {α ι π ρ : Type} (tex : TilesTexture π)
    (factory : String → α) (getImage : α → ι)
    (readRasters : ι → ReadRastersArgs π → List ρ) (cache : LRUCache α)
    (tileCoord : TileCoord) (tileSize : ℕ × ℕ) :
    (getTiledDataTiles tex factory getImage readRasters cache tileCoord tileSize).url =
      tex.xyz.tileUrlFunction (tex.xyz.getTileCoordForTileUrlFunction tileCoord) ∧
    (getTiledDataTiles tex factory getImage readRasters cache tileCoord tileSize).step =
      cacheStep factory cache
        (tex.xyz.tileUrlFunction (tex.xyz.getTileCoordForTileUrlFunction tileCoord)) :=
  ⟨rfl, rfl⟩

/-- Claim C6: On the success path, `GlTiledTextureGeoTiffTiles.getTiledData`
resolves to the first raster of the `readRasters` call, which is invoked
with width `tileSize[0]`, height `tileSize[1]`, samples `[sample]` (a
single-element list), the configured `fillValue` and the configured
worker pool. -/
theorem getTiledData_single_raster {α ι π ρ : Type} (tex : TilesTexture π)
    (factory : String → α) (getImage : α → ι)
    (readRasters : ι → ReadRastersArgs π → List ρ) (cache : LRUCache α)
    (tileCoord : TileCoord) (tileSize : ℕ × ℕ) :
    (getTiledDataTiles tex factory getImage readRasters cache tileCoord tileSize).readArgs =
      ⟨tileSize.1, tileSize.2, [tex.sample], tex.fillValue, tex.pool⟩ ∧
    (getTiledDataTiles tex factory getImage readRasters cache tileCoord
      tileSize).readArgs.samples.length = 1 ∧
    (getTiledDataTiles tex factory getImage readRasters cache tileCoord tileSize).result =
      (readRasters
        (getTiledDataTiles tex factory getImage readRasters cache tileCoord tileSize).image
        ⟨tileSize.1, tileSize.2, [tex.sample], tex.fillValue, tex.pool⟩).head? :=
  ⟨rfl, rfl, rfl⟩

/-- Claim C3: `getFetchFunctionDef` maps the selected sample's
`(BitsPerSample, SampleFormat)` pair to one of exactly two GLSL body
expressions — `(8, uint)` and `(8, int)` produce
`return texel.x * 256.;`, `(16, uint)` and `(16, int)` produce
`return texel.x * 256. + texel.a * 65536.0;`, and the two bodies are
distinct — and for every other pair the returned promise rejects with a
message starting `GeoTIFF pixel format not yet implemented (`. -/
theorem getFetchFunctionDef_two_bodies (fname uname : String) (bits format : ℕ) :
    ((bits = 8 ∧ (format = 1 ∨ format = 2)) →
      getFetchFunctionDef fname uname bits format =
        .resolved (wrapGlsl fname uname "return texel.x * 256.;")) ∧
    ((bits = 16 ∧ (format = 1 ∨ format = 2)) →
      getFetchFunctionDef fname uname bits format =
        .resolved (wrapGlsl fname uname "return texel.x * 256. + texel.a * 65536.0;")) ∧
    ("return texel.x * 256.;" : String) ≠ "return texel.x * 256. + texel.a * 65536.0;" ∧
    (¬((bits = 8 ∨ bits = 16) ∧ (format = 1 ∨ format = 2)) →
      ∃ rest, getFetchFunctionDef fname uname bits format =
        .rejected ("GeoTIFF pixel format not yet implemented (" ++ rest)) := by
  refine ⟨?_, ?_, by decide, ?_⟩
  · rintro ⟨rfl, rfl | rfl⟩ <;> rfl
  · rintro ⟨rfl, rfl | rfl⟩ <;> rfl
  · intro h
    by_cases hf1 : format = 1
    · have hb8 : bits ≠ 8 := fun hb => h ⟨Or.inl hb, Or.inl hf1⟩
      have hb16 : bits ≠ 16 := fun hb => h ⟨Or.inr hb, Or.inl hf1⟩
      subst hf1
      exact ⟨toString bits ++ (" bits, " ++ ("uint" ++ ")")),
        by simp [getFetchFunctionDef, fetchFormatBranch, hb8, hb16, notImplementedMsg,
          String.append_assoc]⟩
    · by_cases hf2 : format = 2
      · have hb8 : bits ≠ 8 := fun hb => h ⟨Or.inl hb, Or.inr hf2⟩
        have hb16 : bits ≠ 16 := fun hb => h ⟨Or.inr hb, Or.inr hf2⟩
        subst hf2
        exact ⟨toString bits ++ (" bits, " ++ ("int" ++ ")")),
          by simp [getFetchFunctionDef, fetchFormatBranch, hb8, hb16, notImplementedMsg,
            String.append_assoc]⟩
      · exact ⟨toString bits ++ (" bits, " ++ ("unknown uint/int/float" ++ ")")),
          by simp [getFetchFunctionDef, fetchFormatBranch, hf1, hf2, notImplementedMsg,
            String.append_assoc]⟩

/-- Witness for claim C3 at a concrete input: an 8-bit uint sample yields
the first GLSL body. -/
theorem getFetchFunctionDef_two_bodies_witness :
    getFetchFunctionDef "getElevation" "uTexture0" 8 1 =
      .resolved (wrapGlsl "getElevation" "uTexture0" "return texel.x * 256.;") :=
  (getFetchFunctionDef_two_bodies "getElevation" "uTexture0" 8 1).1 ⟨rfl, Or.inl rfl⟩

/-- Claim C8: The third rejection branch of `getFetchFunctionDef` (the one
producing the `(... bits, float)` message, guarded by a duplicated
`format === 2` test) is unreachable for every input, and for a sample
with `SampleFormat = 3` (float) the rejection message is always the
generic `(... bits, unknown uint/int/float)` variant. -/
theorem float_reject_branch_unreachable (fname uname : String) (bits format : ℕ) :
    fetchFormatBranch bits format ≠ FetchBranch.rejectFloat ∧
    (format = 3 →
      getFetchFunctionDef fname uname bits format =
        .rejected (notImplementedMsg bits "unknown uint/int/float")) := by
  constructor
  · rw [fetchFormatBranch]
    split_ifs <;> simp_all
  · intro h3
    subst h3
    simp [getFetchFunctionDef, fetchFormatBranch]

/-- Witness for claim C8 at a concrete input: a 32-bit float sample rejects
with the generic message, not the float-specific one. -/
theorem float_reject_branch_unreachable_witness :
    fetchFormatBranch 32 3 ≠ FetchBranch.rejectFloat ∧
    getFetchFunctionDef "getElevation" "uTexture0" 32 3 =
      .rejected (notImplementedMsg 32 "unknown uint/int/float") :=
  ⟨(float_reject_branch_unreachable "getElevation" "uTexture0" 32 3).1,
   (float_reject_branch_unreachable "getElevation" "uTexture0" 32 3).2 rfl⟩

theorem loadImage_ok_fields {sample : ℕ} {fv : ℤ} {img : GeoTiffImage}
    {st : LoadedGeoTiff} (h : loadImage sample fv img = Except.ok st) :
    st.width = img.width ∧ st.height = img.height ∧ st.bbox = img.bbox ∧
    st.bboxWidth = img.bbox.e2 - img.bbox.e0 ∧
    st.bboxHeight = img.bbox.e3 - img.bbox.e1 ∧
    st.emptyData = List.replicate (img.width * img.height) (coerceToElem st.kind fv) := by
  simp only [loadImage] at h
  split_ifs at h <;>
    (rw [Except.ok.injEq] at h
     subst h
     exact ⟨rfl, rfl, rfl, rfl, rfl, rfl⟩)

/-- Claim C4: In `GlTiledTextureGeoTiff.getTiledData`, when the tile extent
lies inside the image bounding box, the pixel window passed to
`readRasters` equals `[round(x2), round(H - y1), round(x1), round(H - y2)]`
where `H` is the image pixel height,
`x_i = ((tileExtent_x - bbox[0]) / bboxWidth) * width` for the tile
extent's right (`x1`) and left (`x2`) edges, and
`y_i = ((tileExtent_y - bbox[1]) / bboxHeight) * height` for the top
(`y1`) and bottom (`y2`) edges. -/
theorem getTiledData_pixel_window {π : Type} (img : GeoTiffImage) (sample : ℕ)
    (fv : ℤ) (pool : Option π) (te : Extent) (ts : ℕ × ℕ) (st : LoadedGeoTiff)
    (hok : loadImage sample fv img = Except.ok st)
    (hbw : img.bbox.e0 < img.bbox.e2) (hbh : img.bbox.e1 < img.bbox.e3)
    (hl : img.bbox.e0 ≤ te.e0) (hlr : te.e0 ≤ te.e2) (hr : te.e2 ≤ img.bbox.e2)
    (hb : img.bbox.e1 ≤ te.e1) (hbt : te.e1 ≤ te.e3) (ht : te.e3 ≤ img.bbox.e3) :
    getTiledDataGeoTiff st sample fv pool te ts =
      .readCall ⟨[
        jsRound ((te.e0 - img.bbox.e0) / (img.bbox.e2 - img.bbox.e0) * img.width),
        jsRound ((img.height : ℚ) -
          (te.e3 - img.bbox.e1) / (img.bbox.e3 - img.bbox.e1) * img.height),
        jsRound ((te.e2 - img.bbox.e0) / (img.bbox.e2 - img.bbox.e0) * img.width),
        jsRound ((img.height : ℚ) -
          (te.e1 - img.bbox.e1) / (img.bbox.e3 - img.bbox.e1) * img.height)],
        ts.1, ts.2, "nearest", [sample], fv, pool⟩ := by
  obtain ⟨hW, hH, hB, hBW, hBH, _⟩ := loadImage_ok_fields hok
  have hbwpos : (0 : ℚ) < img.bbox.e2 - img.bbox.e0 := by linarith
  have hbhpos : (0 : ℚ) < img.bbox.e3 - img.bbox.e1 := by linarith
  have hx1 : (0 : ℚ) ≤ (te.e2 - img.bbox.e0) / (img.bbox.e2 - img.bbox.e0) * img.width :=
    mul_nonneg (div_nonneg (by linarith) hbwpos.le) (by positivity)
  have hx2 : (te.e0 - img.bbox.e0) / (img.bbox.e2 - img.bbox.e0) * img.width ≤
      (img.width : ℚ) := by
    have hq : (te.e0 - img.bbox.e0) / (img.bbox.e2 - img.bbox.e0) ≤ 1 :=
      (div_le_one hbwpos).mpr (by linarith)
    calc (te.e0 - img.bbox.e0) / (img.bbox.e2 - img.bbox.e0) * img.width ≤
        1 * (img.width : ℚ) := mul_le_mul_of_nonneg_right hq (by positivity)
      _ = (img.width : ℚ) := one_mul _
  have hy1 : (0 : ℚ) ≤ (te.e3 - img.bbox.e1) / (img.bbox.e3 - img.bbox.e1) * img.height :=
    mul_nonneg (div_nonneg (by linarith) hbhpos.le) (by positivity)
  have hy2 : (te.e1 - img.bbox.e1) / (img.bbox.e3 - img.bbox.e1) * img.height ≤
      (img.height : ℚ) := by
    have hq : (te.e1 - img.bbox.e1) / (img.bbox.e3 - img.bbox.e1) ≤ 1 :=
      (div_le_one hbhpos).mpr (by linarith)
    calc (te.e1 - img.bbox.e1) / (img.bbox.e3 - img.bbox.e1) * img.height ≤
        1 * (img.height : ℚ) := mul_le_mul_of_nonneg_right hq (by positivity)
      _ = (img.height : ℚ) := one_mul _
  simp only [getTiledDataGeoTiff]
  rw [hW, hH, hB, hBW, hBH]
  rw [if_neg (by push_neg; exact ⟨hx1, hx2, hy1, hy2⟩)]

/-- Witness for claim C4 at a concrete input: a 2×2 image with
bbox `[0, 0, 2, 2]` and the full-bbox tile extent. -/
theorem getTiledData_pixel_window_witness :
    getTiledDataGeoTiff (π := Unit) sampleLoaded2 0 0 none ⟨0, 0, 2, 2⟩ (4, 4) =
      .readCall ⟨[
        jsRound (((0 : ℚ) - 0) / (2 - 0) * (2 : ℕ)),
        jsRound (((2 : ℕ) : ℚ) - ((2 : ℚ) - 0) / (2 - 0) * (2 : ℕ)),
        jsRound (((2 : ℚ) - 0) / (2 - 0) * (2 : ℕ)),
        jsRound (((2 : ℕ) : ℚ) - ((0 : ℚ) - 0) / (2 - 0) * (2 : ℕ))],
        4, 4, "nearest", [0], 0, none⟩ := by
  have hok : loadImage 0 0 sampleImage2 = Except.ok sampleLoaded2 := by
    norm_num [loadImage, sampleImage2, sampleLoaded2, coerceToElem,
      List.replicate]
  exact getTiledData_pixel_window sampleImage2 0 0 none ⟨0, 0, 2, 2⟩ (4, 4)
    sampleLoaded2 hok (by norm_num [sampleImage2]) (by norm_num [sampleImage2])
    (by norm_num [sampleImage2]) (by norm_num) (by norm_num [sampleImage2])
    (by norm_num [sampleImage2]) (by norm_num) (by norm_num [sampleImage2])

/-- Counterexample for claim C9 as stated: with the (documented default)
`fillValue = -999` and an 8-bit uint sample, the out-of-bounds result's
elements equal `25` — the fill value coerced by the `Uint8Array` — and
not the configured `fillValue` itself. -/
theorem empty_tile_fill_counterexample :
    loadImage 0 (-999) sampleImage1 = Except.ok sampleLoaded1 ∧
    getTiledDataGeoTiff (π := Unit) sampleLoaded1 0 (-999) none ⟨-2, -2, -1, -1⟩ (1, 1) =
      .emptyTile [25] ∧
    ¬((25 : ℤ) = -999) := by
  refine ⟨?_, ?_, by decide⟩
  · norm_num [loadImage, sampleImage1, sampleLoaded1, coerceToElem, List.replicate]
  · norm_num [getTiledDataGeoTiff, sampleLoaded1]

/-- Claim C9, amended: In `GlTiledTextureGeoTiff.getTiledData`, whenever
the computed pixel window exceeds the image bounds on any side, the call
resolves — without invoking `readRasters` — to the precomputed empty
array of length `width * height` whose every element equals the
configured `fillValue` coerced into the element type selected from the
sample's `(bits, format)` pair (which is `fillValue` itself exactly when
`fillValue` is representable in that type, and not zero in general). -/
theorem empty_tile_on_out_of_bounds {π : Type} (img : GeoTiffImage) (sample : ℕ)
    (fv : ℤ) (pool : Option π) (te : Extent) (ts : ℕ × ℕ) (st : LoadedGeoTiff)
    (hok : loadImage sample fv img = Except.ok st)
    (hout : (te.e2 - st.bbox.e0) / st.bboxWidth * st.width < 0 ∨
            (st.width : ℚ) < (te.e0 - st.bbox.e0) / st.bboxWidth * st.width ∨
            (te.e3 - st.bbox.e1) / st.bboxHeight * st.height < 0 ∨
            (st.height : ℚ) < (te.e1 - st.bbox.e1) / st.bboxHeight * st.height) :
    getTiledDataGeoTiff st sample fv pool te ts = .emptyTile st.emptyData ∧
    st.emptyData.length = st.width * st.height ∧
    ∀ e ∈ st.emptyData, e = coerceToElem st.kind fv := by
  obtain ⟨hW, hH, _, _, _, hE⟩ := loadImage_ok_fields hok
  refine ⟨?_, ?_, ?_⟩
  · simp only [getTiledDataGeoTiff]
    rw [if_pos hout]
  · rw [hE, List.length_replicate, hW, hH]
  · intro e he
    rw [hE] at he
    exact (List.mem_replicate.mp he).2

/-- Witness for claim C9 as amended, at a concrete input: the 1×1 image,
fill value `-999`, and a tile extent left of the bbox. -/
theorem empty_tile_on_out_of_bounds_witness :
    getTiledDataGeoTiff (π := Unit) sampleLoaded1 0 (-999) none ⟨-2, -2, -1, -1⟩ (1, 1) =
      .emptyTile sampleLoaded1.emptyData ∧
    sampleLoaded1.emptyData.length = sampleLoaded1.width * sampleLoaded1.height ∧
    ∀ e ∈ sampleLoaded1.emptyData, e = coerceToElem sampleLoaded1.kind (-999) := by
  have hok : loadImage 0 (-999) sampleImage1 = Except.ok sampleLoaded1 := by
    norm_num [loadImage, sampleImage1, sampleLoaded1, coerceToElem, List.replicate]
  exact empty_tile_on_out_of_bounds sampleImage1 0 (-999) none ⟨-2, -2, -1, -1⟩ (1, 1)
    sampleLoaded1 hok (Or.inl (by norm_num [sampleLoaded1]))

theorem applyEvent_preserves_inv {s0 s1 : PromiseState} {e : TilesEvent}
    (he : applyEvent s0 e = some s1) (hinv : PromiseInv s0) : PromiseInv s1 := by
  obtain ⟨h1, h2, h3⟩ := hinv
  cases e with
  | callGetTiledData i =>
    rw [applyEvent, Option.some.injEq] at he
    subst he
    refine ⟨h1, ?_, ?_⟩
    · intro j hj
      exact List.mem_append_left _ (h2 j hj)
    · intro hf
      rcases h3 hf with ⟨hli, htc⟩
      exact ⟨hli, by simp⟩
  | imageLoaded i =>
    rw [applyEvent] at he
    split_ifs at he with hmem
    rw [Option.some.injEq] at he
    subst he
    refine ⟨?_, ?_, ?_⟩
    · intro _
      simp
    · intro j hj
      rcases List.mem_append.mp hj with hj | hj
      · exact h2 j hj
      · rw [List.mem_singleton.mp hj]
        exact hmem
    · intro hf
      rcases h3 hf with ⟨hli, htc⟩
      exact ⟨by simp, htc⟩
  | callGetFetchFunctionDef =>
    rw [applyEvent, Option.some.injEq] at he
    subst he
    exact ⟨h1, h2, h3⟩
  | fetchFunctionSettled =>
    rw [applyEvent] at he
    split_ifs at he with hpre
    rw [Option.some.injEq] at he
    subst he
    refine ⟨h1, h2, ?_⟩
    · intro _
      have hli : s0.loadedImages ≠ [] := h1 hpre.2
      rcases List.exists_mem_of_ne_nil _ hli with ⟨j, hj⟩
      exact ⟨hli, List.ne_nil_of_mem (h2 j hj)⟩

theorem runEvents_preserves_inv {es : List TilesEvent} {s0 s : PromiseState}
    (h : runEvents s0 es = some s) (hinv : PromiseInv s0) : PromiseInv s := by
  induction es generalizing s0 with
  | nil =>
    rw [runEvents, Option.some.injEq] at h
    subst h
    exact hinv
  | cons e rest ih =>
    rw [runEvents] at h
    cases he : applyEvent s0 e with
    | none => rw [he] at h; cases h
    | some s1 =>
      rw [he] at h
      exact ih h (applyEvent_preserves_inv he hinv)

/-- Claim C10: In the `anyTile_` event model, the promise returned by
`getFetchFunctionDef` never settles unless `getTiledData` has been called
at least once and its GeoTIFF image has loaded: whenever a valid schedule
from the constructor state reaches a state with `fetchSettled`, some
image continuation has run (`loadedImages` nonempty), each such image
belongs to a prior `getTiledData` call, and `getTiledData` has been
called. -/
theorem fetch_settles_only_after_image (es : List TilesEvent) (s : PromiseState)
    (h : runEvents initialPromiseState es = some s)
    (hs : s.fetchSettled = true) :
    s.loadedImages ≠ [] ∧ s.tiledDataCalls ≠ [] ∧
    ∀ i ∈ s.loadedImages, i ∈ s.tiledDataCalls := by
  have hinv0 : PromiseInv initialPromiseState := by
    refine ⟨?_, ?_, ?_⟩ <;> simp [initialPromiseState, PromiseInv]
  have hinv := runEvents_preserves_inv h hinv0
  rcases hinv with ⟨h1, h2, h3⟩
  rcases h3 hs with ⟨hli, htc⟩
  exact ⟨hli, htc, h2⟩

/-- Witness for claim C10 at a concrete schedule: one `getTiledData` call
whose image loads, then `getFetchFunctionDef` is called and settles. -/
theorem fetch_settles_only_after_image_witness :
    (⟨[0], [0], true, true, true⟩ : PromiseState).loadedImages ≠ [] ∧
    (⟨[0], [0], true, true, true⟩ : PromiseState).tiledDataCalls ≠ [] ∧
    ∀ i ∈ (⟨[0], [0], true, true, true⟩ : PromiseState).loadedImages,
      i ∈ (⟨[0], [0], true, true, true⟩ : PromiseState).tiledDataCalls :=
  fetch_settles_only_after_image
    [.callGetTiledData 0, .imageLoaded 0, .callGetFetchFunctionDef, .fetchFunctionSettled]
    ⟨[0], [0], true, true, true⟩ (by decide) rfl

end GlTiledTexture
